import Mathlib

/-!
Shallow embedding of three source files of the rv6 kernel
(`kernel-rs/src/util/list2.rs`, `kernel-rs/src/virtio/virtio_disk.rs`,
`kernel-rs/src/sysfile.rs`), together with theorems settling the frozen
claims about them.  Nodes, inodes, buffers and file handles are identified
by natural-number ids; pointer-linked structures become total functions
from ids, and a store to one field becomes a pointwise function update.
-/

/-- Pointwise update of a function, modelling a store to one slot or field. -/
def upd {β : Type} (f : Nat → β) (x : Nat) (v : β) : Nat → β :=
  fun y => if y = x then v else f y

theorem upd_same {β : Type} (f : Nat → β) (x : Nat) (v : β) : upd f x v x = v := by
  simp [upd]

theorem upd_other {β : Type} (f : Nat → β) (x : Nat) (v : β) {y : Nat} (h : y ≠ x) :
    upd f x v y = f y := by
  simp [upd, h]

/-! ## Intrusive doubly linked list (`util/list2.rs`)

A `ListEntry` is a pair of pointers `{prev, next}`.  The heap of all
entries is modelled as two total functions on node ids; the sentinel head
of a list is just another node id. -/

/-- Heap of `ListEntry` records: every node id carries a `prev` and a
`next` pointer (`list2.rs`, struct `ListEntry`). -/
structure Heap where
  prev : Nat → Nat
  next : Nat → Nat

/-- ListEntry::is_unlinked: the entry's `next` points to itself. -/
def Heap.isUnlinked (h : Heap) (s : Nat) : Bool :=
  h.next s == s

/-- ListEntry::remove (`list2.rs` 714-723), statement by statement:
`(*s.prev()).next = s.next(); (*s.next()).prev = s.prev();
s.prev = s; s.next = s;`. -/
def entryRemove (h : Heap) (s : Nat) : Heap :=
  let h1 : Heap := { h with next := upd h.next (h.prev s) (h.next s) }
  let h2 : Heap := { h1 with prev := upd h1.prev (h1.next s) (h1.prev s) }
  { prev := upd h2.prev s s, next := upd h2.next s s }

/-- Splicing part of ListEntry::push_back (`list2.rs` 685-693), after the
initial unlink: `e.prev = s.prev(); e.next = s; (*e.next()).prev = e;
(*e.prev()).next = e;`. -/
def entryPushBackBody (h0 : Heap) (s e : Nat) : Heap :=
  let h1 : Heap := { h0 with prev := upd h0.prev e (h0.prev s) }
  let h2 : Heap := { h1 with next := upd h1.next e s }
  let h3 : Heap := { h2 with prev := upd h2.prev (h2.next e) e }
  { h3 with next := upd h3.next (h3.prev e) e }

/-- ListEntry::push_back (`list2.rs` 680-694): unlink `e` if it is linked,
then splice it right before `s`. -/
def entryPushBack (h : Heap) (s e : Nat) : Heap :=
  entryPushBackBody (if h.isUnlinked e then h else entryRemove h e) s e

/-- Splicing part of ListEntry::push_front (`list2.rs` 702-710), after the
initial unlink: `e.prev = s; e.next = self.next(); (*e.next()).prev = e;
(*e.prev()).next = e;`. -/
def entryPushFrontBody (h0 : Heap) (s e : Nat) : Heap :=
  let h1 : Heap := { h0 with prev := upd h0.prev e s }
  let h2 : Heap := { h1 with next := upd h1.next e (h1.next s) }
  let h3 : Heap := { h2 with prev := upd h2.prev (h2.next e) e }
  { h3 with next := upd h3.next (h3.prev e) e }

/-- ListEntry::push_front (`list2.rs` 697-711): unlink `e` if it is linked,
then splice it right after `s`. -/
def entryPushFront (h : Heap) (s e : Nat) : Heap :=
  entryPushFrontBody (if h.isUnlinked e then h else entryRemove h e) s e

/-- The heap invariant: `prev` and `next` are mutually inverse, so the
functional graph of `next` is a permutation and its orbits partition the
nodes into disjoint circular lists; a self-loop is an unlinked node, and
every other node lies on exactly one circular list. -/
def Heap.Wf (h : Heap) : Prop :=
  ∀ x, h.prev (h.next x) = x ∧ h.next (h.prev x) = x

theorem Heap.Wf.prev_next {h : Heap} (hw : h.Wf) (x : Nat) : h.prev (h.next x) = x :=
  (hw x).1

theorem Heap.Wf.next_prev {h : Heap} (hw : h.Wf) (x : Nat) : h.next (h.prev x) = x :=
  (hw x).2

theorem Heap.Wf.next_inj {h : Heap} (hw : h.Wf) {a b : Nat}
    (hab : h.next a = h.next b) : a = b := by
  have := congrArg h.prev hab
  rwa [hw.prev_next, hw.prev_next] at this

theorem Heap.Wf.prev_inj {h : Heap} (hw : h.Wf) {a b : Nat}
    (hab : h.prev a = h.prev b) : a = b := by
  have := congrArg h.next hab
  rwa [hw.next_prev, hw.next_prev] at this

theorem Heap.Wf.prev_self {h : Heap} (hw : h.Wf) {e : Nat} (he : h.next e = e) :
    h.prev e = e := by
  conv_lhs => rw [← he]
  exact hw.prev_next e

/-- Pointwise closed form of `entryRemove` on the `prev` map. -/
theorem entryRemove_prev (h : Heap) (s y : Nat) :
    (entryRemove h s).prev y = upd (upd h.prev (h.next s) (h.prev s)) s s y := by
  simp only [entryRemove, upd, ite_self]

/-- Pointwise closed form of `entryRemove` on the `next` map. -/
theorem entryRemove_next (h : Heap) (s y : Nat) :
    (entryRemove h s).next y = upd (upd h.next (h.prev s) (h.next s)) s s y := by
  simp only [entryRemove, upd, ite_self]

/-- After `entryRemove h s`, the node `s` is in the self-loop state. -/
theorem entryRemove_self_next (h : Heap) (s : Nat) : (entryRemove h s).next s = s := by
  rw [entryRemove_next, upd_same]

theorem entryRemove_self_prev (h : Heap) (s : Nat) : (entryRemove h s).prev s = s := by
  rw [entryRemove_prev, upd_same]

theorem isUnlinked_entryRemove (h : Heap) (s : Nat) :
    (entryRemove h s).isUnlinked s = true := by
  simp [Heap.isUnlinked, entryRemove_self_next]

/-- A heap whose maps are an old well-formed heap's maps composed with a
transposition of two ids is again well formed. -/
theorem wf_comp_swap {h : Heap} (hw : h.Wf) (a b : Nat) {H : Heap}
    (hprev : ∀ y, H.prev y = Equiv.swap a b (h.prev y))
    (hnext : ∀ y, H.next y = h.next (Equiv.swap a b y)) : H.Wf := by
  intro x
  constructor
  · rw [hnext, hprev, hw.prev_next, Equiv.swap_apply_self]
  · rw [hprev, hnext, Equiv.swap_apply_self, hw.next_prev]

/-- The `next` map after `entryRemove h s` is the old one precomposed with
the transposition of `h.prev s` and `s`. -/
theorem entryRemove_next_swap {h : Heap} (hw : h.Wf) (s y : Nat) :
    (entryRemove h s).next y = h.next (Equiv.swap (h.prev s) s y) := by
  rw [entryRemove_next]
  rcases eq_or_ne y s with rfl | hys
  · rw [upd_same, Equiv.swap_apply_right, hw.next_prev]
  · rw [upd_other _ _ _ hys]
    rcases eq_or_ne y (h.prev s) with rfl | hyp
    · rw [upd_same, Equiv.swap_apply_left]
    · rw [upd_other _ _ _ hyp, Equiv.swap_apply_of_ne_of_ne hyp hys]

/-- The `prev` map after `entryRemove h s` is the transposition of
`h.prev s` and `s` composed with the old one. -/
theorem entryRemove_prev_swap {h : Heap} (hw : h.Wf) (s y : Nat) :
    (entryRemove h s).prev y = Equiv.swap (h.prev s) s (h.prev y) := by
  rw [entryRemove_prev]
  rcases eq_or_ne y s with rfl | hys
  · rw [upd_same, Equiv.swap_apply_left]
  · rw [upd_other _ _ _ hys]
    rcases eq_or_ne y (h.next s) with rfl | hyn
    · rw [upd_same, hw.prev_next, Equiv.swap_apply_right]
    · have ha : h.prev y ≠ h.prev s := fun c => hys (hw.prev_inj c)
      have hb : h.prev y ≠ s := fun c => hyn (by rw [← hw.next_prev y, c])
      rw [upd_other _ _ _ hyn, Equiv.swap_apply_of_ne_of_ne ha hb]

/-- `entryRemove` preserves the heap invariant. -/
theorem wf_entryRemove {h : Heap} (hw : h.Wf) (s : Nat) : (entryRemove h s).Wf :=
  wf_comp_swap hw (h.prev s) s (entryRemove_prev_swap hw s) (entryRemove_next_swap hw s)

/-- Pointwise closed form of the push_back splice on the `prev` map. -/
theorem entryPushBackBody_prev (h : Heap) (s e y : Nat) :
    (entryPushBackBody h s e).prev y = upd (upd h.prev e (h.prev s)) s e y := by
  simp [entryPushBackBody, upd]

/-- Pointwise closed form of the push_back splice on the `next` map. -/
theorem entryPushBackBody_next (h : Heap) (s e : Nat) (hes : e ≠ s) (y : Nat) :
    (entryPushBackBody h s e).next y = upd (upd h.next e s) (h.prev s) e y := by
  simp [entryPushBackBody, upd, hes]

/-- Pointwise closed form of the push_front splice on the `prev` map. -/
theorem entryPushFrontBody_prev (h : Heap) (s e : Nat) (hen : e ≠ h.next s) (y : Nat) :
    (entryPushFrontBody h s e).prev y = upd (upd h.prev e s) (h.next s) e y := by
  simp [entryPushFrontBody, upd, hen]

/-- Pointwise closed form of the push_front splice on the `next` map. -/
theorem entryPushFrontBody_next (h : Heap) (s e : Nat) (hen : e ≠ h.next s) (y : Nat) :
    (entryPushFrontBody h s e).next y = upd (upd h.next e (h.next s)) s e y := by
  simp [entryPushFrontBody, upd, hen]

/-- The push_back splice of an unlinked `e` before `s` acts as composition
with the transposition of `e` and `h.prev s`, hence preserves the invariant. -/
theorem wf_entryPushBackBody {h : Heap} (hw : h.Wf) {s e : Nat}
    (hne : h.next e = e) (hes : e ≠ s) : (entryPushBackBody h s e).Wf := by
  have hpe : h.prev e = e := hw.prev_self hne
  have hps : h.next (h.prev s) = s := hw.next_prev s
  refine wf_comp_swap hw e (h.prev s) (fun y => ?_) (fun y => ?_)
  · rw [entryPushBackBody_prev]
    rcases eq_or_ne y s with rfl | hys
    · rw [upd_same, Equiv.swap_apply_right]
    · rw [upd_other _ _ _ hys]
      rcases eq_or_ne y e with rfl | hye
      · rw [upd_same, hpe, Equiv.swap_apply_left]
      · have h1 : h.prev y ≠ e := fun c => hye (by rw [← hw.next_prev y, c, hne])
        have h2 : h.prev y ≠ h.prev s := fun c => hys (hw.prev_inj c)
        rw [upd_other _ _ _ hye, Equiv.swap_apply_of_ne_of_ne h1 h2]
  · rw [entryPushBackBody_next _ _ _ hes]
    rcases eq_or_ne y (h.prev s) with rfl | hyp
    · rw [upd_same, Equiv.swap_apply_right, hne]
    · rw [upd_other _ _ _ hyp]
      rcases eq_or_ne y e with rfl | hye
      · rw [upd_same, Equiv.swap_apply_left, hps]
      · rw [upd_other _ _ _ hye, Equiv.swap_apply_of_ne_of_ne hye hyp]

/-- The push_front splice of an unlinked `e` after `s` acts as composition
with the transposition of `e` and `s`, hence preserves the invariant. -/
theorem wf_entryPushFrontBody {h : Heap} (hw : h.Wf) {s e : Nat}
    (hne : h.next e = e) (hes : e ≠ s) : (entryPushFrontBody h s e).Wf := by
  have hpe : h.prev e = e := hw.prev_self hne
  have hsn : h.prev (h.next s) = s := hw.prev_next s
  have hen : e ≠ h.next s := by
    intro c
    apply hes
    rw [← hpe, c, hsn]
  refine wf_comp_swap hw e s (fun y => ?_) (fun y => ?_)
  · rw [entryPushFrontBody_prev _ _ _ hen]
    rcases eq_or_ne y (h.next s) with rfl | hyn
    · rw [upd_same, hsn, Equiv.swap_apply_right]
    · rw [upd_other _ _ _ hyn]
      rcases eq_or_ne y e with rfl | hye
      · rw [upd_same, hpe, Equiv.swap_apply_left]
      · have h1 : h.prev y ≠ e := fun c => hye (by rw [← hw.next_prev y, c, hne])
        have h2 : h.prev y ≠ s := fun c => hyn (by rw [← hw.next_prev y, c])
        rw [upd_other _ _ _ hye, Equiv.swap_apply_of_ne_of_ne h1 h2]
  · rw [entryPushFrontBody_next _ _ _ hen]
    rcases eq_or_ne y s with rfl | hys
    · rw [upd_same, Equiv.swap_apply_right, hne]
    · rw [upd_other _ _ _ hys]
      rcases eq_or_ne y e with rfl | hye
      · rw [upd_same, Equiv.swap_apply_left]
      · rw [upd_other _ _ _ hye, Equiv.swap_apply_of_ne_of_ne hye hys]

/-- ListEntry::push_back preserves the heap invariant for any `e ≠ s`,
linked or not. -/
theorem wf_entryPushBack {h : Heap} (hw : h.Wf) {s e : Nat} (hes : e ≠ s) :
    (entryPushBack h s e).Wf := by
  unfold entryPushBack
  split
  · next he => exact wf_entryPushBackBody hw (by simpa [Heap.isUnlinked] using he) hes
  · exact wf_entryPushBackBody (wf_entryRemove hw e) (entryRemove_self_next h e) hes

/-- ListEntry::push_front preserves the heap invariant for any `e ≠ s`,
linked or not. -/
theorem wf_entryPushFront {h : Heap} (hw : h.Wf) {s e : Nat} (hes : e ≠ s) :
    (entryPushFront h s e).Wf := by
  unfold entryPushFront
  split
  · next he => exact wf_entryPushFrontBody hw (by simpa [Heap.isUnlinked] using he) hes
  · exact wf_entryPushFrontBody (wf_entryRemove hw e) (entryRemove_self_next h e) hes

/-- Pushing a linked entry at the back is the same as first removing it and
then pushing the now-unlinked entry. -/
theorem entryPushBack_unlink_first (h : Heap) (s e : Nat)
    (hl : h.isUnlinked e = false) :
    entryPushBack h s e = entryPushBack (entryRemove h e) s e := by
  unfold entryPushBack
  rw [if_neg (by simp [hl]), if_pos (isUnlinked_entryRemove h e)]

/-- Pushing a linked entry at the front is the same as first removing it
and then pushing the now-unlinked entry. -/
theorem entryPushFront_unlink_first (h : Heap) (s e : Nat)
    (hl : h.isUnlinked e = false) :
    entryPushFront h s e = entryPushFront (entryRemove h e) s e := by
  unfold entryPushFront
  rw [if_neg (by simp [hl]), if_pos (isUnlinked_entryRemove h e)]

/-- CursorMut over a list (`list2.rs`, struct `CursorMut`): the sentinel
head pointer and the current pointer; the cursor rests on the ghost
non-element exactly when `current = head`. -/
structure ListCursor where
  head : Nat
  current : Nat

/-- CursorMut::remove_current (`list2.rs` 508-515): when the cursor is not
on the ghost position, read the successor, remove the current entry, and
move the cursor to the successor; otherwise do nothing. -/
def cursorRemoveCurrent (h : Heap) (c : ListCursor) : Heap × ListCursor :=
  if ¬ (c.head = c.current) then
    (entryRemove h c.current, { c with current := h.next c.current })
  else (h, c)

/-- C8: every list operation preserves the invariant that each node's link
entry is either self-looped (unlinked) or a member of exactly one circular
list — formalised as `prev` and `next` staying mutually inverse, so `next`
is a permutation whose orbits are the disjoint circular lists.
`ListEntry::remove` leaves the removed entry with `prev = next = self`,
and `push_back`/`push_front` first unlink an entry that is already linked
before splicing it between its new neighbors. -/
theorem c8_list_ops_preserve_invariant {h : Heap} {s e : Nat}
    (hw : h.Wf) (hes : e ≠ s) :
    (entryRemove h s).Wf ∧
    (entryRemove h s).prev s = s ∧ (entryRemove h s).next s = s ∧
    (entryPushBack h s e).Wf ∧ (entryPushFront h s e).Wf ∧
    (h.isUnlinked e = false →
      entryPushBack h s e = entryPushBack (entryRemove h e) s e ∧
      entryPushFront h s e = entryPushFront (entryRemove h e) s e) :=
  ⟨wf_entryRemove hw s, entryRemove_self_prev h s, entryRemove_self_next h s,
   wf_entryPushBack hw hes, wf_entryPushFront hw hes,
   fun hl => ⟨entryPushBack_unlink_first h s e hl, entryPushFront_unlink_first h s e hl⟩⟩

/-- Witness for C8 at the all-unlinked heap with `s = 0`, `e = 1`. -/
theorem c8_list_ops_preserve_invariant_witness :
    (entryRemove { prev := fun x => x, next := fun x => x } 0).prev 0 = 0 :=
  (c8_list_ops_preserve_invariant
    (h := { prev := fun x => x, next := fun x => x }) (s := 0) (e := 1)
    (fun _ => ⟨rfl, rfl⟩) (by decide)).2.1

/-- C10: calling CursorMut::remove_current while the cursor rests on the
ghost position is a no-op — the heap is unchanged, no node is removed, and
the cursor stays on the ghost position. -/
theorem c10_remove_current_ghost_noop (h : Heap) (c : ListCursor)
    (hg : c.current = c.head) : cursorRemoveCurrent h c = (h, c) := by
  simp [cursorRemoveCurrent, hg]

/-- Witness for C10 at a concrete heap and cursor on the ghost position. -/
theorem c10_remove_current_ghost_noop_witness :
    cursorRemoveCurrent { prev := fun x => x, next := fun x => x } ⟨5, 5⟩ =
      ({ prev := fun x => x, next := fun x => x }, ⟨5, 5⟩) :=
  c10_remove_current_ghost_noop _ _ rfl

/-! ## Virtio block driver (`virtio/virtio_disk.rs`)

The driver state lives in `VirtIoDisk`: a descriptor table `desc[NUM]`, the
avail ring, and driver-side bookkeeping (`free[NUM]`, `used_idx`,
`inflight[NUM]`, `ops[NUM]`).  The descriptor allocation bitmap is a
`List Bool`; the ring constants come from the legacy virtio wire format
given in the spec (NEXT = 1, WRITE = 2, IN = 0, OUT = 1). -/

/-- Modelled from the spec: `NUM`, the virtqueue capacity, declared in the
virtio module outside the given sources; its concrete value does not enter
any claim. -/
def NUM : Nat := 8

/-- Modelled from the spec: `param::BSIZE`, bytes per buffer, declared
outside the given sources; its concrete value does not enter any claim. -/
def BSIZE : Nat := 1024

/-- Modelled from the spec wire format: descriptor flag NEXT = 1. -/
def VRING_NEXT : Nat := 1

/-- Modelled from the spec wire format: descriptor flag WRITE = 2. -/
def VRING_WRITE : Nat := 2

/-- Modelled from the spec wire format: request type IN (read) = 0. -/
def VIRTIO_BLK_T_IN : Nat := 0

/-- Modelled from the spec wire format: request type OUT (write) = 1. -/
def VIRTIO_BLK_T_OUT : Nat := 1

/-- VirtIoDisk::alloc (`virtio_disk.rs` 429-438): linear scan of `free[]`
for the first free slot, mark it non-free, return its index and the
updated bitmap; `none` when every slot is taken. -/
def descAlloc : List Bool → Option (Nat × List Bool)
  | [] => none
  | true :: rest => some (0, false :: rest)
  | false :: rest => (descAlloc rest).map fun p => (p.1 + 1, false :: p.2)

/-- The `free[idx] = true` effect of VirtIoDisk::free (`virtio_disk.rs`
459-468) on the allocation bitmap. -/
def descFree (i : Nat) (f : List Bool) : List Bool := f.set i true

/-- VirtIoDisk::alloc_three_descriptors (`virtio_disk.rs` 442-457): try
three allocations in order; on the first failure free the descriptors
already taken and report failure; the second component is the bitmap the
method leaves behind. -/
def allocThree (f : List Bool) : Option (Nat × Nat × Nat) × List Bool :=
  match descAlloc f with
  | none => (none, f)
  | some (i0, f0) =>
    match descAlloc f0 with
    | none => (none, descFree i0 f0)
    | some (i1, f1) =>
      match descAlloc f1 with
      | none => (none, descFree i1 (descFree i0 f1))
      | some (i2, f2) => (some (i0, i1, i2), f2)

/-- Characterisation of a successful `descAlloc`: the returned index is the
lowest free slot and only that slot is flipped to non-free. -/
theorem descAlloc_some_spec :
    ∀ {f : List Bool} {i : Nat} {f' : List Bool}, descAlloc f = some (i, f') →
      f[i]? = some true ∧ (∀ j, j < i → f[j]? = some false) ∧ f' = f.set i false := by
  intro f
  induction f with
  | nil => intro i f' h; simp [descAlloc] at h
  | cons b rest ih =>
    intro i f' h
    cases b with
    | true =>
      simp only [descAlloc, Option.some_inj, Prod.mk.injEq] at h
      obtain ⟨rfl, rfl⟩ := h
      refine ⟨by simp, fun j hj => absurd hj (Nat.not_lt_zero j), rfl⟩
    | false =>
      simp only [descAlloc, Option.map_eq_some'] at h
      obtain ⟨⟨i', f''⟩, h1, h2⟩ := h
      obtain ⟨rfl, rfl⟩ := Prod.mk.injEq .. ▸ h2
      obtain ⟨g1, g2, g3⟩ := ih h1
      refine ⟨by simpa using g1, ?_, by simp [g3]⟩
      intro j hj
      cases j with
      | zero => simp
      | succ j' => simpa using g2 j' (Nat.lt_of_succ_lt_succ hj)

/-- `descAlloc` fails exactly when no slot is free. -/
theorem descAlloc_none_iff {f : List Bool} :
    descAlloc f = none ↔ ∀ b ∈ f, b = false := by
  induction f with
  | nil => simp [descAlloc]
  | cons b rest ih => cases b <;> simp [descAlloc, Option.map_eq_none', ih]

/-- A successful `descAlloc` consumes exactly one free slot. -/
theorem descAlloc_count :
    ∀ {f : List Bool} {i : Nat} {f' : List Bool}, descAlloc f = some (i, f') →
      f.count true = f'.count true + 1 := by
  intro f
  induction f with
  | nil => intro i f' h; simp [descAlloc] at h
  | cons b rest ih =>
    intro i f' h
    cases b with
    | true =>
      simp only [descAlloc, Option.some_inj, Prod.mk.injEq] at h
      obtain ⟨rfl, rfl⟩ := h
      simp [List.count_cons]
    | false =>
      simp only [descAlloc, Option.map_eq_some'] at h
      obtain ⟨⟨i', f''⟩, h1, h2⟩ := h
      obtain ⟨rfl, rfl⟩ := Prod.mk.injEq .. ▸ h2
      simpa [List.count_cons] using ih h1

/-- Setting a slot to the value it already holds is a no-op. -/
theorem set_of_getElem? {α : Type} :
    ∀ {l : List α} {i : Nat} {a : α}, l[i]? = some a → l.set i a = l := by
  intro l
  induction l with
  | nil => intro i a h; simp at h
  | cons x xs ih =>
    intro i a h
    cases i with
    | zero => simp_all
    | succ i' => simp_all

/-- An index with a value is in bounds. -/
theorem lt_of_getElem?_some {α : Type} {l : List α} {i : Nat} {a : α}
    (h : l[i]? = some a) : i < l.length := by
  by_contra hc
  rw [List.getElem?_eq_none (Nat.le_of_not_lt hc)] at h
  exact Option.noConfusion h

/-- Characterisation of a successful `allocThree`: three distinct indices,
each free before the call and non-free after it. -/
theorem allocThree_some_spec {f : List Bool} {i0 i1 i2 : Nat} {f' : List Bool}
    (h : allocThree f = (some (i0, i1, i2), f')) :
    i0 ≠ i1 ∧ i0 ≠ i2 ∧ i1 ≠ i2 ∧
    f[i0]? = some true ∧ f[i1]? = some true ∧ f[i2]? = some true ∧
    f'[i0]? = some false ∧ f'[i1]? = some false ∧ f'[i2]? = some false := by
  rcases h0 : descAlloc f with _ | ⟨j0, f0⟩
  · simp [allocThree, h0] at h
  rcases h1 : descAlloc f0 with _ | ⟨j1, f1⟩
  · simp [allocThree, h0, h1] at h
  rcases h2 : descAlloc f1 with _ | ⟨j2, f2⟩
  · simp [allocThree, h0, h1, h2] at h
  simp only [allocThree, h0, h1, h2, Prod.mk.injEq, Option.some_inj] at h
  obtain ⟨⟨rfl, rfl, rfl⟩, rfl⟩ := h
  obtain ⟨s00, -, rfl⟩ := descAlloc_some_spec h0
  obtain ⟨s10, -, rfl⟩ := descAlloc_some_spec h1
  obtain ⟨s20, -, rfl⟩ := descAlloc_some_spec h2
  have l0 : j0 < f.length := lt_of_getElem?_some s00
  have d01 : j0 ≠ j1 := by
    rintro rfl
    rw [List.getElem?_set_eq_of_lt _ l0] at s10
    exact Bool.noConfusion (Option.some_inj.mp s10)
  have m1 : f[j1]? = some true := by rwa [List.getElem?_set_ne d01] at s10
  have l1 : j1 < f.length := lt_of_getElem?_some m1
  have d02 : j0 ≠ j2 := by
    rintro rfl
    rw [List.getElem?_set_ne (fun c => d01 c.symm),
        List.getElem?_set_eq_of_lt _ l0] at s20
    exact Bool.noConfusion (Option.some_inj.mp s20)
  have d12 : j1 ≠ j2 := by
    rintro rfl
    rw [List.getElem?_set_eq_of_lt _ (by simpa using l1)] at s20
    exact Bool.noConfusion (Option.some_inj.mp s20)
  have m2 : f[j2]? = some true := by
    rwa [List.getElem?_set_ne d12, List.getElem?_set_ne d02] at s20
  have l2 : j2 < f.length := lt_of_getElem?_some m2
  refine ⟨d01, d02, d12, s00, m1, m2, ?_, ?_, ?_⟩
  · rw [List.getElem?_set_ne (fun c => d02 c.symm),
        List.getElem?_set_ne (fun c => d01 c.symm),
        List.getElem?_set_eq_of_lt _ l0]
  · rw [List.getElem?_set_ne (fun c => d12 c.symm),
        List.getElem?_set_eq_of_lt _ (by simpa using l1)]
  · rw [List.getElem?_set_eq_of_lt _ (by simpa using l2)]

/-- `allocThree` reports failure exactly when fewer than three descriptors
are free. -/
theorem allocThree_none_iff {f : List Bool} :
    (allocThree f).1 = none ↔ f.count true < 3 := by
  rcases h0 : descAlloc f with _ | ⟨j0, f0⟩
  · have : f.count true = 0 := by
      rw [List.count_eq_zero]
      intro hmem
      exact Bool.noConfusion (descAlloc_none_iff.mp h0 true hmem)
    simp [allocThree, h0, this]
  · have c0 : f.count true = f0.count true + 1 := descAlloc_count h0
    rcases h1 : descAlloc f0 with _ | ⟨j1, f1⟩
    · have : f0.count true = 0 := by
        rw [List.count_eq_zero]
        intro hmem
        exact Bool.noConfusion (descAlloc_none_iff.mp h1 true hmem)
      simp [allocThree, h0, h1, c0, this]
    · have c1 : f0.count true = f1.count true + 1 := descAlloc_count h1
      rcases h2 : descAlloc f1 with _ | ⟨j2, f2⟩
      · have : f1.count true = 0 := by
          rw [List.count_eq_zero]
          intro hmem
          exact Bool.noConfusion (descAlloc_none_iff.mp h2 true hmem)
        simp [allocThree, h0, h1, h2, c0, c1, this]
      · have c2 : f1.count true = f2.count true + 1 := descAlloc_count h2
        simp only [allocThree, h0, h1, h2]
        constructor
        · intro hc
          exact Option.noConfusion hc
        · intro hc
          omega

/-- When `allocThree` fails it has freed whatever it took: the bitmap it
leaves behind is exactly the one it started from. -/
theorem allocThree_none_restore {f : List Bool} (h : (allocThree f).1 = none) :
    (allocThree f).2 = f := by
  rcases h0 : descAlloc f with _ | ⟨j0, f0⟩
  · simp [allocThree, h0]
  obtain ⟨s00, -, rfl⟩ := descAlloc_some_spec h0
  have l0 : j0 < f.length := lt_of_getElem?_some s00
  rcases h1 : descAlloc (f.set j0 false) with _ | ⟨j1, f1⟩
  · simp only [allocThree, h0, h1, descFree]
    rw [List.set_set, set_of_getElem? s00]
  obtain ⟨s10, -, rfl⟩ := descAlloc_some_spec h1
  have d01 : j0 ≠ j1 := by
    rintro rfl
    rw [List.getElem?_set_eq_of_lt _ l0] at s10
    exact Bool.noConfusion (Option.some_inj.mp s10)
  have m1 : f[j1]? = some true := by rwa [List.getElem?_set_ne d01] at s10
  rcases h2 : descAlloc ((f.set j0 false).set j1 false) with _ | ⟨j2, f2⟩
  · simp only [allocThree, h0, h1, h2, descFree]
    rw [List.set_comm _ _ _ (fun c => d01 c.symm), List.set_set, List.set_set,
        set_of_getElem? s00, set_of_getElem? m1]
  · simp [allocThree, h0, h1, h2] at h

/-- C5: `alloc` returns the lowest free index and marks it non-free,
failing iff no slot is free; `alloc_three_descriptors` fails exactly when
fewer than three descriptors are free, restoring `free[]` on failure, and
on success returns three distinct indices, each newly marked non-free. -/
theorem c5_descriptor_allocator_spec (f : List Bool) :
    (∀ i f', descAlloc f = some (i, f') →
       f[i]? = some true ∧ (∀ j, j < i → f[j]? = some false) ∧ f' = f.set i false) ∧
    (descAlloc f = none ↔ ∀ b ∈ f, b = false) ∧
    ((allocThree f).1 = none ↔ f.count true < 3) ∧
    ((allocThree f).1 = none → (allocThree f).2 = f) ∧
    (∀ i0 i1 i2 f', allocThree f = (some (i0, i1, i2), f') →
       i0 ≠ i1 ∧ i0 ≠ i2 ∧ i1 ≠ i2 ∧
       f[i0]? = some true ∧ f[i1]? = some true ∧ f[i2]? = some true ∧
       f'[i0]? = some false ∧ f'[i1]? = some false ∧ f'[i2]? = some false) :=
  ⟨fun _ _ h => descAlloc_some_spec h, descAlloc_none_iff, allocThree_none_iff,
   allocThree_none_restore, fun _ _ _ _ h => allocThree_some_spec h⟩

/-- Witness for C5 on the bitmap `[false, true, true, true]`, where
`alloc_three_descriptors` succeeds with indices 1, 2, 3. -/
theorem c5_descriptor_allocator_spec_witness :
    ([false, true, true, true] : List Bool)[1]? = some true :=
  ((c5_descriptor_allocator_spec [false, true, true, true]).2.2.2.2
    1 2 3 [false, false, false, false] rfl).2.2.2.2.1

/-- Symbolic guest-physical address of one of the DMA regions a descriptor
can point at: a request header `ops[i]`, the status byte of
`inflight[i]`, or a buffer's `data` array. -/
inductive DmaAddr where
  | nullAddr : DmaAddr
  | opHeader (i : Nat) : DmaAddr
  | statusByte (i : Nat) : DmaAddr
  | bufData (b : Nat) : DmaAddr
deriving DecidableEq

/-- Virtqueue descriptor (`VirtqDesc`): `{addr, len, flags, next}`. -/
structure VirtqDesc where
  addr : DmaAddr
  len : Nat
  flags : Nat
  next : Nat
deriving DecidableEq

/-- Request header (`VirtIoBlockOutHeader`): `{typ, reserved, sector}`. -/
structure BlkHeader where
  typ : Nat
  reserved : Nat
  sector : Nat
deriving DecidableEq

/-- In-flight bookkeeping (`InflightInfo`): buffer id (none models the
null pointer) and the status byte (`true` until the device writes 0). -/
structure Inflight where
  b : Option Nat
  status : Bool
deriving DecidableEq

/-- Driver-visible state touched by `VirtIoDisk::rw`: the descriptor table,
the avail ring, and the `DiskInfo` bookkeeping, plus the per-buffer `disk`
flag of the buffer cache. -/
structure DiskSt where
  desc : Nat → VirtqDesc
  availIdx : Nat
  availRing : Nat → Nat
  free : List Bool
  ops : Nat → BlkHeader
  inflight : Nat → Inflight
  diskFlag : Nat → Bool

/-- VirtIoDisk::rw (`virtio_disk.rs` 289-394) up to the publish of the
request (the avail-ring store and index increment): computes the sector,
allocates three descriptors, formats the three-descriptor chain, marks the
buffer in-flight, and publishes the chain head.  Returns `none` when the
allocation fails, which in the source makes the thread sleep and retry. -/
def diskRw (d : DiskSt) (b blockno : Nat) (write : Bool) :
    Option (DiskSt × Nat × Nat × Nat) :=
  let sector := blockno * (BSIZE / 512)
  match allocThree d.free with
  | (none, _) => none
  | (some (i0, i1, i2), f') =>
    let d := { d with free := f' }
    let d := { d with
      ops := upd d.ops i0
        ⟨if write then VIRTIO_BLK_T_OUT else VIRTIO_BLK_T_IN, 0, sector⟩ }
    let d := { d with
      desc := upd d.desc i0 ⟨DmaAddr.opHeader i0, 16, VRING_NEXT, i1⟩ }
    let d := { d with
      desc := upd d.desc i1
        ⟨DmaAddr.bufData b, BSIZE,
         if write then VRING_NEXT else VRING_NEXT + VRING_WRITE, i2⟩ }
    let d := { d with diskFlag := upd d.diskFlag b true }
    let d := { d with inflight := upd d.inflight i0 ⟨some b, true⟩ }
    let d := { d with
      desc := upd d.desc i2 ⟨DmaAddr.statusByte i0, 1, VRING_WRITE, 0⟩ }
    let d := { d with
      availRing := upd d.availRing (d.availIdx % NUM) i0,
      availIdx := d.availIdx + 1 }
    some (d, i0, i1, i2)

/-- C4: whenever the descriptor allocation succeeds, `rw` publishes a
request occupying exactly the three allocated (pairwise distinct)
descriptors, chained head-to-tail: descriptor 0 holds the request header
`{typ = OUT if write else IN, reserved = 0, sector = blockno * (BSIZE/512)}`
with flag NEXT pointing at descriptor 1; descriptor 1 covers the buffer's
BSIZE data bytes with flags NEXT when writing and NEXT|WRITE when reading,
pointing at descriptor 2; descriptor 2 covers the 1-byte status with flag
WRITE and `next = 0`; the chain head lands in the avail ring and
`avail.idx` is incremented. -/
theorem c4_rw_three_descriptor_chain (d : DiskSt) (b blockno : Nat) (write : Bool)
    {i0 i1 i2 : Nat} {f' : List Bool}
    (h : allocThree d.free = (some (i0, i1, i2), f')) :
    ∃ d', diskRw d b blockno write = some (d', i0, i1, i2) ∧
      i0 ≠ i1 ∧ i0 ≠ i2 ∧ i1 ≠ i2 ∧
      d'.desc i0 = ⟨DmaAddr.opHeader i0, 16, VRING_NEXT, i1⟩ ∧
      d'.ops i0 = ⟨if write then VIRTIO_BLK_T_OUT else VIRTIO_BLK_T_IN, 0,
        blockno * (BSIZE / 512)⟩ ∧
      d'.desc i1 = ⟨DmaAddr.bufData b, BSIZE,
        if write then VRING_NEXT else VRING_NEXT + VRING_WRITE, i2⟩ ∧
      d'.desc i2 = ⟨DmaAddr.statusByte i0, 1, VRING_WRITE, 0⟩ ∧
      d'.inflight i0 = ⟨some b, true⟩ ∧
      d'.diskFlag b = true ∧
      d'.availRing (d.availIdx % NUM) = i0 ∧ d'.availIdx = d.availIdx + 1 := by
  obtain ⟨d01, d02, d12, -, -, -, -, -, -⟩ := allocThree_some_spec h
  simp only [diskRw, h]
  refine ⟨_, rfl, d01, d02, d12, ?_, ?_, ?_, ?_, ?_, ?_, ?_, rfl⟩ <;>
    simp [upd, d01, d02, d12]

/-- Witness for C4 on a concrete idle disk state with all descriptors free,
where the three allocated descriptors are 0, 1 and 2. -/
theorem c4_rw_three_descriptor_chain_witness :
    (diskRw
      { desc := fun _ => ⟨DmaAddr.nullAddr, 0, 0, 0⟩
        availIdx := 0
        availRing := fun _ => 0
        free := [true, true, true]
        ops := fun _ => ⟨0, 0, 0⟩
        inflight := fun _ => ⟨none, false⟩
        diskFlag := fun _ => false } 7 3 true).isSome = true := by
  obtain ⟨d', hd, -⟩ := c4_rw_three_descriptor_chain
    { desc := fun _ => ⟨DmaAddr.nullAddr, 0, 0, 0⟩
      availIdx := 0
      availRing := fun _ => 0
      free := [true, true, true]
      ops := fun _ => ⟨0, 0, 0⟩
      inflight := fun _ => ⟨none, false⟩
      diskFlag := fun _ => false } 7 3 true
    (show allocThree [true, true, true] = (some (0, 1, 2), [false, false, false])
      from rfl)
  rw [hd]
  rfl

/-- State read and written by VirtIoDisk::intr (`virtio_disk.rs` 396-426):
the device's published used id and used ring, the driver's `used_idx`, the
inflight table, the per-buffer `disk` flags of the buffer cache, and the
list of wait channels woken so far.  The u16 counters are modelled as
naturals carrying the invariant `usedIdx ≤ devUsedId`. -/
structure IntrSt where
  devUsedId : Nat
  usedRing : Nat → Nat
  usedIdx : Nat
  inflight : Nat → Inflight
  diskFlag : Nat → Bool
  woken : List Nat

/-- The `while used_idx != used.id` loop of VirtIoDisk::intr: read the
chain head from the used ring, assert the device wrote status 0, look up
the in-flight buffer (`none` models the `assert!`/`expect` panics), clear
its `disk` flag, wake its wait channel, and advance `used_idx`.  The fuel
only bounds the iteration count; `diskIntr` passes the exact distance. -/
def intrLoop : Nat → IntrSt → Option IntrSt
  | 0, st => if st.usedIdx = st.devUsedId then some st else none
  | fuel + 1, st =>
    if st.usedIdx = st.devUsedId then some st
    else
      let i := st.usedRing (st.usedIdx % NUM)
      if (st.inflight i).status then none
      else
        match (st.inflight i).b with
        | none => none
        | some b =>
          intrLoop fuel
            { st with
              usedIdx := st.usedIdx + 1
              diskFlag := upd st.diskFlag b false
              woken := b :: st.woken }

/-- VirtIoDisk::intr (`virtio_disk.rs` 396-426). -/
def diskIntr (st : IntrSt) : Option IntrSt :=
  intrLoop (st.devUsedId - st.usedIdx) st

/-- Full characterisation of the interrupt loop, by induction on the fuel. -/
theorem intrLoop_spec :
    ∀ (fuel : Nat) (st : IntrSt),
    st.devUsedId - st.usedIdx ≤ fuel →
    st.usedIdx ≤ st.devUsedId →
    (∀ k, st.usedIdx ≤ k → k < st.devUsedId →
      (st.inflight (st.usedRing (k % NUM))).status = false ∧
      (st.inflight (st.usedRing (k % NUM))).b.isSome = true) →
    ∃ st', intrLoop fuel st = some st' ∧
      st'.usedIdx = st.devUsedId ∧
      st'.devUsedId = st.devUsedId ∧
      (∀ x, st.diskFlag x = false → st'.diskFlag x = false) ∧
      (∀ x, x ∈ st.woken → x ∈ st'.woken) ∧
      (∀ k, st.usedIdx ≤ k → k < st.devUsedId →
        ∀ b, (st.inflight (st.usedRing (k % NUM))).b = some b →
          st'.diskFlag b = false ∧ b ∈ st'.woken) := by
  intro fuel
  induction fuel with
  | zero =>
    intro st hdist hle _
    have he : st.usedIdx = st.devUsedId := by omega
    refine ⟨st, by simp [intrLoop, he], he, rfl, fun _ hx => hx, fun _ hx => hx, ?_⟩
    intro k hk1 hk2
    omega
  | succ fuel ih =>
    intro st hdist hle hok
    by_cases he : st.usedIdx = st.devUsedId
    · refine ⟨st, by simp [intrLoop, he], he, rfl, fun _ hx => hx, fun _ hx => hx, ?_⟩
      intro k hk1 hk2
      omega
    · have hlt : st.usedIdx < st.devUsedId := Nat.lt_of_le_of_ne hle he
      obtain ⟨hst, hb⟩ := hok st.usedIdx (Nat.le_refl _) hlt
      obtain ⟨b, hbeq⟩ := Option.isSome_iff_exists.mp hb
      obtain ⟨st', hrun, hidx, hdev, hflag, hwoke, hcons⟩ :=
        ih { st with
              usedIdx := st.usedIdx + 1
              diskFlag := upd st.diskFlag b false
              woken := b :: st.woken }
          (by simp; omega) (by simp; omega)
          (by
            intro k hk1 hk2
            simp only at hk1 hk2 ⊢
            exact hok k (by omega) hk2)
      refine ⟨st', ?_, by simpa using hidx, by simpa using hdev, ?_, ?_, ?_⟩
      · simp only [intrLoop, if_neg he, hst, Bool.false_eq_true, if_false, hbeq]
        exact hrun
      · intro x hx
        apply hflag
        simp only [upd]
        split <;> simp [hx]
      · intro x hx
        exact hwoke x (List.mem_cons_of_mem _ hx)
      · intro k hk1 hk2 b0 hb0
        rcases Nat.eq_or_lt_of_le hk1 with rfl | hkgt
        · rw [hbeq] at hb0
          obtain rfl : b = b0 := Option.some_inj.mp hb0
          constructor
          · apply hflag
            simp [upd]
          · exact hwoke b (List.mem_cons_self b _)
        · exact hcons k (by simpa using hkgt) hk2 b0 hb0

/-- C6: whenever `intr` returns, the driver's `used_idx` equals the
device's published `used.id` (in particular it never exceeds it), and for
every completion entry consumed — each head in the used ring from the old
`used_idx` up to `used.id` — the corresponding in-flight buffer's `disk`
flag is false and that buffer's wait channel has been woken. -/
theorem c6_intr_consumes_all_completions (st : IntrSt)
    (hle : st.usedIdx ≤ st.devUsedId)
    (hok : ∀ k, st.usedIdx ≤ k → k < st.devUsedId →
      (st.inflight (st.usedRing (k % NUM))).status = false ∧
      (st.inflight (st.usedRing (k % NUM))).b.isSome = true) :
    ∃ st', diskIntr st = some st' ∧
      st'.usedIdx = st.devUsedId ∧ st'.usedIdx ≤ st.devUsedId ∧
      (∀ k, st.usedIdx ≤ k → k < st.devUsedId →
        ∀ b, (st.inflight (st.usedRing (k % NUM))).b = some b →
          st'.diskFlag b = false ∧ b ∈ st'.woken) := by
  obtain ⟨st', hrun, hidx, -, -, -, hcons⟩ :=
    intrLoop_spec (st.devUsedId - st.usedIdx) st (Nat.le_refl _) hle hok
  exact ⟨st', hrun, hidx, Nat.le_of_eq hidx, hcons⟩

/-- Witness for C6: one outstanding completion, head 2, buffer 5. -/
theorem c6_intr_consumes_all_completions_witness :
    (diskIntr
      { devUsedId := 1
        usedRing := fun _ => 2
        usedIdx := 0
        inflight := fun _ => ⟨some 5, false⟩
        diskFlag := fun _ => true
        woken := [] }).isSome = true := by
  obtain ⟨st', hrun, -⟩ := c6_intr_consumes_all_completions
    { devUsedId := 1
      usedRing := fun _ => 2
      usedIdx := 0
      inflight := fun _ => ⟨some 5, false⟩
      diskFlag := fun _ => true
      woken := [] }
    (by exact Nat.zero_le 1) (fun k _ _ => ⟨rfl, rfl⟩)
  rw [hrun]
  rfl

/-! ## Filesystem syscalls (`sysfile.rs`)

Inodes are identified by ids.  The in-core inode attributes the claims
touch (type, nlink and its persisted on-disk copy, device, major/minor,
lock bit) are per-id functions in `FsState`; directory contents are lists
of entries indexed by slot.  The external path-resolution and directory
primitives (`namei`, `nameiparent`, `dirlookup`, `dirlink`, `Inode::alloc`
— all implemented outside the given sources) come in as an environment
`FsEnv`; locking is tracked, reference counting is not (it never enters a
claim). -/

/-- Inode type tags (`stat::{T_DIR, T_FILE, T_DEVICE}`, declared outside
the given sources; only their distinctness matters). -/
def T_DIR : Nat := 1

def T_FILE : Nat := 2

def T_DEVICE : Nat := 3

/-- One on-disk directory entry (`fs::Dirent`): inum 0 marks a free slot. -/
structure Dirent where
  inum : Nat
  name : String
deriving DecidableEq

/-- The inode attributes the syscalls under `sysfile.rs` read and write. -/
structure FsState where
  typ : Nat → Nat
  nlink : Nat → Int
  dnlink : Nat → Int
  dev : Nat → Nat
  major : Nat → Int
  minor : Nat → Int
  locked : Nat → Bool
  dirents : Nat → List Dirent

/-- Inode::lock. -/
def FsState.lock (st : FsState) (i : Nat) : FsState :=
  { st with locked := upd st.locked i true }

/-- Inode::unlock. -/
def FsState.unlock (st : FsState) (i : Nat) : FsState :=
  { st with locked := upd st.locked i false }

/-- Inode::put — drops the in-core reference; reference counts are not
modelled, so only the visible fields (none) change. -/
def FsState.put (st : FsState) (_ : Nat) : FsState := st

/-- Inode::unlockput — unlock then put. -/
def FsState.unlockput (st : FsState) (i : Nat) : FsState :=
  (st.unlock i).put i

/-- Inode::update — persists the in-core header (the claims track the
nlink field, so `dnlink` receives the in-core value). -/
def FsState.update (st : FsState) (i : Nat) : FsState :=
  { st with dnlink := upd st.dnlink i (st.nlink i) }

/-- The `nlink += 1` store. -/
def FsState.bumpNlink (st : FsState) (i : Nat) : FsState :=
  { st with nlink := upd st.nlink i (st.nlink i + 1) }

/-- The `nlink -= 1` store. -/
def FsState.decNlink (st : FsState) (i : Nat) : FsState :=
  { st with nlink := upd st.nlink i (st.nlink i - 1) }

/-- External filesystem primitives (`fs::{namei, nameiparent, dirlookup,
dirlink}`, `Inode::alloc` — implemented outside the given sources).
`namei` resolves a path to an inode; `nameiparent` resolves the parent and
yields the final component; `dirlookup` yields the child inode and the
byte offset of its entry; `dirlink` returns the post-insertion state or
`none` on failure; `ialloc` yields a fresh inode id or `none`. -/
structure FsEnv where
  namei : String → Option Nat
  nameiparent : String → Option (Nat × String)
  dirlookup : Nat → String → Option (Nat × Nat)
  dirlink : FsState → Nat → String → Nat → Option FsState
  ialloc : Nat → Nat → Option Nat

/-- Result of `create` (`sysfile.rs` 274-334): the locked inode, the null
pointer, or a kernel panic (`fatal`). -/
inductive CreateRes where
  | ok (ip : Nat) (st : FsState) : CreateRes
  | nullp (st : FsState) : CreateRes
  | fatal : CreateRes
deriving Nonempty

/-- Does a `CreateRes` return an inode? -/
def CreateRes.isOk : CreateRes → Bool
  | .ok _ _ => true
  | _ => false

/-- Does a `CreateRes` return the null pointer? -/
def CreateRes.isNull : CreateRes → Bool
  | .nullp _ => true
  | _ => false

/-- Did `create` panic? -/
def CreateRes.isFatal : CreateRes → Bool
  | .fatal => true
  | _ => false

/-- create (`sysfile.rs` 274-334): resolve the parent; if the name already
exists, return the existing inode locked when the requested type is FILE
and the existing one is FILE or DEVICE, else fail; otherwise allocate a
fresh inode (panic when allocation fails), initialise it, write the `.`
and `..` entries for a directory (panic when either fails), and link the
name into the parent (panic on failure). -/
def create (env : FsEnv) (st : FsState) (path : String)
    (typ : Nat) (major minor : Int) : CreateRes :=
  match env.nameiparent path with
  | none => .nullp st
  | some (dp, name) =>
    let st := st.lock dp
    match env.dirlookup dp name with
    | some (ip, _) =>
      let st := st.unlockput dp
      let st := st.lock ip
      if typ = T_FILE ∧ (st.typ ip = T_FILE ∨ st.typ ip = T_DEVICE) then
        .ok ip st
      else
        .nullp (st.unlockput ip)
    | none =>
      match env.ialloc (st.dev dp) typ with
      | none => .fatal
      | some ip =>
        let st := { st with typ := upd st.typ ip typ }
        let st := st.lock ip
        let st := { st with major := upd st.major ip major }
        let st := { st with minor := upd st.minor ip minor }
        let st := { st with nlink := upd st.nlink ip 1 }
        let st := st.update ip
        let dots : Option FsState :=
          if typ = T_DIR then
            let st := (st.bumpNlink dp).update dp
            match env.dirlink st ip "." ip with
            | none => none
            | some st1 =>
              match env.dirlink st1 ip ".." dp with
              | none => none
              | some st2 => some st2
          else some st
        match dots with
        | none => .fatal
        | some st =>
          match env.dirlink st dp name ip with
          | none => .fatal
          | some st => .ok ip (st.unlockput dp)

/-- sys_link (`sysfile.rs` 131-175): look up `old`; reject directories;
bump and persist its nlink; resolve `new`'s parent; when the parent is
missing, lives on another device, or `dirlink` fails, roll the bump back
(decrement, persist) and return −1; otherwise return 0. -/
def sys_link (env : FsEnv) (st : FsState) (old new : String) : Int × FsState :=
  match env.namei old with
  | none => (-1, st)
  | some ip =>
    let st := st.lock ip
    if st.typ ip = T_DIR then (-1, st.unlockput ip)
    else
      let st := (((st.bumpNlink ip).update ip).unlock ip)
      let rollback : FsState → Int × FsState := fun st =>
        (-1, ((((st.lock ip).decNlink ip).update ip).unlockput ip))
      match env.nameiparent new with
      | none => rollback st
      | some (dp, name) =>
        let st := st.lock dp
        if st.dev dp ≠ st.dev ip then rollback (st.unlockput dp)
        else
          match env.dirlink st dp name ip with
          | none => rollback (st.unlockput dp)
          | some st => (0, (st.unlockput dp).put ip)

/-- isdirempty (`sysfile.rs` 178-200): every entry past the first two has
inum 0. -/
def isdirempty (ents : List Dirent) : Bool :=
  (ents.drop 2).all fun de => de.inum == 0

/-- The `dp.write` of a zeroed Dirent at offset `off` in sys_unlink. -/
def FsState.zeroDirent (st : FsState) (dp off : Nat) : FsState :=
  { st with dirents := upd st.dirents dp ((st.dirents dp).set off ⟨0, ""⟩) }

/-- sys_unlink (`sysfile.rs` 202-272): resolve the parent; reject `.` and
`..`; look up the entry; panic (`none`) when the child's nlink < 1; reject
non-empty directories; otherwise zero the entry, fix the parent's nlink
for a directory child, decrement and persist the child's nlink. -/
def sys_unlink (env : FsEnv) (st : FsState) (path : String) :
    Option (Int × FsState) :=
  match env.nameiparent path with
  | none => some (-1, st)
  | some (dp, name) =>
    let st := st.lock dp
    if name = "." ∨ name = ".." then some (-1, st.unlockput dp)
    else
      match env.dirlookup dp name with
      | none => some (-1, st.unlockput dp)
      | some (ip, off) =>
        let st := st.lock ip
        if st.nlink ip < 1 then none
        else if st.typ ip = T_DIR ∧ isdirempty (st.dirents ip) = false then
          some (-1, (st.unlockput ip).unlockput dp)
        else
          let st := st.zeroDirent dp off
          let st := if st.typ ip = T_DIR then (st.decNlink dp).update dp else st
          let st := st.unlockput dp
          let st := (((st.decNlink ip).update ip).unlockput ip)
          some (0, st)

/-- Per-process descriptor table (`proc.ofile`, NOFILE slots) and the file
handles' reference counts (`File::dup` increments them). -/
structure ProcState where
  ofile : List (Option Nat)
  fref : Nat → Nat

/-- File::fdalloc (`sysfile.rs` 31-42): scan `ofile` for the lowest unset
slot; store the handle there and return the index; `none` when the table
is full. -/
def fdalloc (f : Nat) : List (Option Nat) → Option (Nat × List (Option Nat))
  | [] => none
  | none :: rest => some (0, some f :: rest)
  | some g :: rest => (fdalloc f rest).map fun p => (p.1 + 1, some g :: p.2)

/-- sys_dup (`sysfile.rs` 68-80) after the argfd lookup of handle `f`:
allocate a descriptor (return −1 when that fails, before any refcount
change), then `File::dup` the handle and return the descriptor. -/
def sys_dup (st : ProcState) (f : Nat) : Int × ProcState :=
  match fdalloc f st.ofile with
  | none => (-1, st)
  | some (fd, ofl) =>
    ((fd : Int), { ofile := ofl, fref := upd st.fref f (st.fref f + 1) })

/-- C1 (amended): when the final component already exists in its parent,
`create` returns the existing inode, locked, provided the requested type
is exactly FILE and the existing inode's type is FILE or DEVICE — so
`open(O_CREATE)` on an existing FILE path succeeds idempotently. -/
theorem c1_create_returns_existing_file (env : FsEnv) (st : FsState)
    (path : String) (major minor : Int) {dp ip off : Nat} {name : String}
    (hp : env.nameiparent path = some (dp, name))
    (hl : env.dirlookup dp name = some (ip, off))
    (hty : st.typ ip = T_FILE ∨ st.typ ip = T_DEVICE) :
    ∃ st', create env st path T_FILE major minor = CreateRes.ok ip st' ∧
      st'.locked ip = true := by
  simp only [create, hp, hl, true_and]
  rw [if_pos (show (((st.lock dp).unlockput dp).lock ip).typ ip = T_FILE ∨
    (((st.lock dp).unlockput dp).lock ip).typ ip = T_DEVICE from hty)]
  exact ⟨_, rfl, upd_same _ _ _⟩

/-- Counterexample to C1 as stated: with a DEVICE type requested (which is
FILE-like in the claim's sense) on a path whose final component exists as
a FILE, `create` returns the null pointer instead of the existing inode. -/
theorem c1_counterexample :
    (create
      { namei := fun _ => none
        nameiparent := fun _ => some (1, "f")
        dirlookup := fun _ _ => some (2, 0)
        dirlink := fun st _ _ _ => some st
        ialloc := fun _ _ => some 3 }
      { typ := fun _ => T_FILE
        nlink := fun _ => 1
        dnlink := fun _ => 1
        dev := fun _ => 0
        major := fun _ => 0
        minor := fun _ => 0
        locked := fun _ => false
        dirents := fun _ => [] }
      "p" T_DEVICE 0 0).isOk = false := by
  rfl

/-- Witness for C1 (amended) at a concrete environment where `p`'s final
component `f` exists as inode 2 of type FILE. -/
theorem c1_create_returns_existing_file_witness :
    ∃ st', create
      { namei := fun _ => none
        nameiparent := fun _ => some (1, "f")
        dirlookup := fun _ _ => some (2, 0)
        dirlink := fun st _ _ _ => some st
        ialloc := fun _ _ => some 3 }
      { typ := fun _ => T_FILE
        nlink := fun _ => 1
        dnlink := fun _ => 1
        dev := fun _ => 0
        major := fun _ => 0
        minor := fun _ => 0
        locked := fun _ => false
        dirents := fun _ => [] }
      "p" T_FILE 0 0 = CreateRes.ok 2 st' ∧ st'.locked 2 = true :=
  c1_create_returns_existing_file _ _ "p" 0 0 rfl rfl (Or.inl rfl)

/-- C9: on the creation path (name missing from the parent, on-disk
allocation succeeding), `create` never returns null — whatever the
directory-link primitive does, the result is the new inode or a panic —
and when `dirlink` fails (directory-entry exhaustion, covering both the
`.`/`..` writes of a new directory and the final link of the new name),
`create` panics instead of returning a recoverable null. -/
theorem c9_create_miss_dirlink_failure_fatal (env : FsEnv) (st : FsState)
    (path : String) (typ : Nat) (major minor : Int) {dp ip : Nat} {name : String}
    (hp : env.nameiparent path = some (dp, name))
    (hl : env.dirlookup dp name = none)
    (ha : env.ialloc (st.dev dp) typ = some ip) :
    (create env st path typ major minor).isNull = false ∧
    ((∀ s d nm i, env.dirlink s d nm i = none) →
      (create env st path typ major minor).isFatal = true) := by
  constructor
  · simp only [create, hp, hl, FsState.lock, ha]
    split
    · rfl
    · split
      · rfl
      · rfl
  · intro hd
    simp only [create, hp, hl, FsState.lock, ha, hd]
    split
    · rfl
    · rfl

/-- Witness for C9: concrete environment whose `dirlink` always fails;
`create` on the missing name `f` panics and does not return null. -/
theorem c9_create_miss_dirlink_failure_fatal_witness :
    (create
      { namei := fun _ => none
        nameiparent := fun _ => some (1, "f")
        dirlookup := fun _ _ => none
        dirlink := fun _ _ _ _ => none
        ialloc := fun _ _ => some 3 }
      { typ := fun _ => T_DIR
        nlink := fun _ => 1
        dnlink := fun _ => 1
        dev := fun _ => 0
        major := fun _ => 0
        minor := fun _ => 0
        locked := fun _ => false
        dirents := fun _ => [] }
      "p" T_FILE 0 0).isFatal = true :=
  (c9_create_miss_dirlink_failure_fatal _ _ "p" T_FILE 0 0 rfl rfl rfl).2
    (fun _ _ _ _ => rfl)

/-- C2: when sys_link fails after bumping `old`'s nlink — the parent of
`new` cannot be resolved, lives on another device, or `dirlink` fails —
it returns −1 and `old`'s nlink is decremented back and persisted, so the
link count ends at its pre-call value. -/
theorem c2_sys_link_failure_restores_nlink (env : FsEnv) (st : FsState)
    (old new : String) {ip : Nat}
    (h1 : env.namei old = some ip)
    (h2 : st.typ ip ≠ T_DIR)
    (hfail :
      env.nameiparent new = none ∨
      ∃ dp name, env.nameiparent new = some (dp, name) ∧
        (st.dev dp ≠ st.dev ip ∨
         (st.dev dp = st.dev ip ∧
          env.dirlink (((((st.lock ip).bumpNlink ip).update ip).unlock ip).lock dp)
            dp name ip = none))) :
    (sys_link env st old new).1 = -1 ∧
    (sys_link env st old new).2.nlink ip = st.nlink ip ∧
    (sys_link env st old new).2.dnlink ip = st.nlink ip := by
  rcases hfail with hnp | ⟨dp, name, hnp, hcase⟩
  · simp [sys_link, h1, hnp, h2, FsState.lock, FsState.unlock, FsState.unlockput,
      FsState.put, FsState.update, FsState.bumpNlink, FsState.decNlink, upd]
  · rcases hcase with hdev | ⟨hdev, hdl⟩
    · simp [sys_link, h1, hnp, h2, hdev, FsState.lock, FsState.unlock,
        FsState.unlockput, FsState.put, FsState.update, FsState.bumpNlink,
        FsState.decNlink, upd]
    · simp only [FsState.lock, FsState.unlock, FsState.unlockput, FsState.put,
        FsState.update, FsState.bumpNlink, FsState.decNlink, upd_same] at hdl
      simp [sys_link, h1, hnp, h2, hdev, hdl, FsState.lock, FsState.unlock,
        FsState.unlockput, FsState.put, FsState.update, FsState.bumpNlink,
        FsState.decNlink, upd]

/-- Witness for C2: linking `a` (inode 4) when `b`'s parent cannot be
resolved returns −1. -/
theorem c2_sys_link_failure_restores_nlink_witness :
    (sys_link
      { namei := fun _ => some 4
        nameiparent := fun _ => none
        dirlookup := fun _ _ => none
        dirlink := fun _ _ _ _ => none
        ialloc := fun _ _ => none }
      { typ := fun _ => T_FILE
        nlink := fun _ => 5
        dnlink := fun _ => 5
        dev := fun _ => 0
        major := fun _ => 0
        minor := fun _ => 0
        locked := fun _ => false
        dirents := fun _ => [] } "a" "b").1 = -1 :=
  (c2_sys_link_failure_restores_nlink _ _ "a" "b" rfl (by decide) (Or.inl rfl)).1

/-- C3: `sys_unlink` returns −1 and zeroes no directory entry when the
final component is `.` or `..`, or when the target is a directory that
still has an entry past the first two with nonzero inum (taking the
child's `nlink ≥ 1`, whose violation makes the kernel panic instead). -/
theorem c3_sys_unlink_rejects_dots_and_nonempty_dirs (env : FsEnv)
    (st : FsState) (path : String) {dp : Nat} {name : String}
    (hp : env.nameiparent path = some (dp, name))
    (hcase :
      (name = "." ∨ name = "..") ∨
      (∃ ip off, env.dirlookup dp name = some (ip, off) ∧ 1 ≤ st.nlink ip ∧
        st.typ ip = T_DIR ∧ isdirempty (st.dirents ip) = false)) :
    ∃ st', sys_unlink env st path = some (-1, st') ∧ st'.dirents = st.dirents := by
  rcases hcase with hdot | ⟨ip, off, hlk, hnl, hdir, hne⟩
  · refine ⟨((st.lock dp).unlockput dp), ?_, rfl⟩
    simp [sys_unlink, hp, hdot]
  · by_cases hdot : name = "." ∨ name = ".."
    · refine ⟨((st.lock dp).unlockput dp), ?_, rfl⟩
      simp [sys_unlink, hp, hdot]
    · refine ⟨((((st.lock dp).lock ip).unlockput ip).unlockput dp), ?_, rfl⟩
      have hnl2 : ¬ (((st.lock dp).lock ip).nlink ip < 1) := by
        simp only [FsState.lock]
        omega
      simp [sys_unlink, hp, hdot, hlk, hnl2, hnl, hdir, hne, FsState.lock]

/-- Witness for C3: unlinking a path whose final component is `.`. -/
theorem c3_sys_unlink_rejects_dots_and_nonempty_dirs_witness :
    ∃ st', sys_unlink
      { namei := fun _ => none
        nameiparent := fun _ => some (1, ".")
        dirlookup := fun _ _ => none
        dirlink := fun _ _ _ _ => none
        ialloc := fun _ _ => none }
      { typ := fun _ => T_DIR
        nlink := fun _ => 1
        dnlink := fun _ => 1
        dev := fun _ => 0
        major := fun _ => 0
        minor := fun _ => 0
        locked := fun _ => false
        dirents := fun _ => [] } "p" = some (-1, st') ∧
      st'.dirents = fun _ => ([] : List Dirent) :=
  c3_sys_unlink_rejects_dots_and_nonempty_dirs _ _ "p" rfl (Or.inl (Or.inl rfl))

/-- `fdalloc` fails exactly when every slot holds a handle. -/
theorem fdalloc_none_iff (f : Nat) :
    ∀ l : List (Option Nat), fdalloc f l = none ↔ ∀ o ∈ l, o.isSome = true := by
  intro l
  induction l with
  | nil => simp [fdalloc]
  | cons o rest ih =>
    cases o with
    | none => simp [fdalloc]
    | some g => simp [fdalloc, Option.map_eq_none', ih]

/-- Characterisation of a successful `fdalloc`: the returned index is the
lowest unset slot, and the handle is stored exactly there. -/
theorem fdalloc_some_spec (f : Nat) :
    ∀ {l : List (Option Nat)} {i : Nat} {l' : List (Option Nat)},
      fdalloc f l = some (i, l') →
      l[i]? = some none ∧ (∀ j, j < i → l[j]? ≠ some none) ∧
      l' = l.set i (some f) := by
  intro l
  induction l with
  | nil => intro i l' h; simp [fdalloc] at h
  | cons o rest ih =>
    intro i l' h
    cases o with
    | none =>
      simp only [fdalloc, Option.some_inj, Prod.mk.injEq] at h
      obtain ⟨rfl, rfl⟩ := h
      exact ⟨by simp, fun j hj => absurd hj (Nat.not_lt_zero j), by simp⟩
    | some g =>
      simp only [fdalloc, Option.map_eq_some'] at h
      obtain ⟨⟨i', l''⟩, h1, h2⟩ := h
      obtain ⟨rfl, rfl⟩ := Prod.mk.injEq .. ▸ h2
      obtain ⟨g1, g2, g3⟩ := ih h1
      refine ⟨by simpa using g1, ?_, by simp [g3]⟩
      intro j hj
      cases j with
      | zero => simp
      | succ j' => simpa using g2 j' (Nat.lt_of_succ_lt_succ hj)

/-- C7: when the descriptor table has no unset slot, `sys_dup` returns −1
with the process state (including the handle's refcount) unchanged; when a
slot is unset, the allocation succeeds, the handle is stored in the lowest
unset slot, its refcount is incremented (all other refcounts unchanged),
and that slot index is returned. -/
theorem c7_sys_dup_spec (st : ProcState) (f : Nat) :
    ((∀ o ∈ st.ofile, o.isSome = true) → sys_dup st f = (-1, st)) ∧
    ((∃ o ∈ st.ofile, o = none) → (fdalloc f st.ofile).isSome = true) ∧
    (∀ i l', fdalloc f st.ofile = some (i, l') →
      (sys_dup st f).1 = (i : Int) ∧
      st.ofile[i]? = some none ∧ (∀ j, j < i → st.ofile[j]? ≠ some none) ∧
      (sys_dup st f).2.ofile = st.ofile.set i (some f) ∧
      (sys_dup st f).2.fref f = st.fref f + 1 ∧
      (∀ g, g ≠ f → (sys_dup st f).2.fref g = st.fref g)) := by
  refine ⟨?_, ?_, ?_⟩
  · intro hall
    simp [sys_dup, (fdalloc_none_iff f st.ofile).mpr hall]
  · intro ⟨o, ho, hnone⟩
    rcases hfd : fdalloc f st.ofile with _ | p
    · rw [fdalloc_none_iff] at hfd
      subst hnone
      exact Bool.noConfusion (hfd none ho)
    · rfl
  · intro i l' hfd
    obtain ⟨g1, g2, g3⟩ := fdalloc_some_spec f hfd
    subst g3
    refine ⟨?_, g1, g2, ?_, ?_, ?_⟩
    · simp [sys_dup, hfd]
    · simp [sys_dup, hfd]
    · simp [sys_dup, hfd, upd]
    · intro g hg
      simp [sys_dup, hfd, upd, hg]

/-- Witness for C7 on both directions: a full one-slot table and a table
with its second slot unset. -/
theorem c7_sys_dup_spec_witness :
    sys_dup { ofile := [some 9], fref := fun _ => 1 } 9 =
      (-1, { ofile := [some 9], fref := fun _ => 1 }) :=
  (c7_sys_dup_spec { ofile := [some 9], fref := fun _ => 1 } 9).1
    (by intro o ho; simp at ho; simp [ho])
